import Mathlib

/-!
Verification development for the configuration-patching utility
(`src/config-init.js`).  The script is embedded shallowly:

* JavaScript values produced by parsing the configuration file are
  modelled by `JValue`; objects and arrays carry association lists of
  named properties in insertion order (JavaScript additionally fronts
  integer-like keys during enumeration, a serialization-order detail
  that no property here depends on).
* Property reads and strict-mode property writes are modelled by
  `jsGet` / `jsSet`, returning `Except Unit` where the script can throw
  a `TypeError`.
* The three truthiness-guarded structure statements, the two field
  assignments, and the surrounding script (environment variables,
  file-existence guard, parse, serialize, write-back, exit codes) are
  each translated into executable Lean definitions below.
-/

/-- A JavaScript value as produced by evaluating the configuration file.
Numbers are modelled as integers (no claim depends on fractional
values).  Arrays carry both their elements and any named properties
assigned to them (`JSON.stringify` drops the latter). -/
inductive JValue where
| null
| bool (b : Bool)
| num (n : Int)
| str (s : String)
| arr (elems : List JValue) (props : List (String × JValue))
| obj (fields : List (String × JValue))

/-- First binding of `key` in an association list. -/
def lookupKey {α : Type} : List (String × α) → String → Option α
| [], _ => none
| (k, v) :: rest, key => if k = key then some v else lookupKey rest key

/-- Bind `key` to `v`: replace the first existing binding in place
(JavaScript keeps the original insertion position on overwrite),
otherwise append. -/
def setKey {α : Type} : List (String × α) → String → α → List (String × α)
| [], key, v => [(key, v)]
| (k, w) :: rest, key, v =>
    if k = key then (key, v) :: rest else (k, w) :: setKey rest key v

/-- JavaScript truthiness of a read result (`none` is `undefined`). -/
def truthy : Option JValue → Bool
| none => false
| some JValue.null => false
| some (JValue.bool b) => b
| some (JValue.num n) => n != 0
| some (JValue.str s) => s != ""
| some (JValue.arr _ _) => true
| some (JValue.obj _) => true

/-- Property read `v.k`.  Reading from `null` throws a `TypeError`;
primitives are boxed and yield `undefined` for the keys used here;
objects and arrays look up their named properties. -/
def jsGet (v : JValue) (k : String) : Except Unit (Option JValue) :=
match v with
| JValue.null => Except.error ()
| JValue.obj fs => Except.ok (lookupKey fs k)
| JValue.arr _ ps => Except.ok (lookupKey ps k)
| _ => Except.ok none

/-- Strict-mode property write `v.k = x`.  Objects and arrays accept
named properties; writing to `null` or a primitive throws a
`TypeError` (the script is an ES module, hence strict mode). -/
def jsSet (v : JValue) (k : String) (x : JValue) : Except Unit JValue :=
match v with
| JValue.obj fs => Except.ok (JValue.obj (setKey fs k x))
| JValue.arr es ps => Except.ok (JValue.arr es (setKey ps k x))
| _ => Except.error ()

/-- Property read on a possibly-`undefined` base (`undefined.k` throws). -/
def jsGetOpt (v : Option JValue) (k : String) : Except Unit (Option JValue) :=
match v with
| none => Except.error ()
| some w => jsGet w k

/-- Property write on a possibly-`undefined` base (`undefined.k = x` throws). -/
def jsSetOpt (v : Option JValue) (k : String) (x : JValue) : Except Unit JValue :=
match v with
| none => Except.error ()
| some w => jsSet w k x

/-- Line 24 of `config-init.js`:
`if (!config.agents) config.agents = \x7b\x7d;`

Here and in the following statements, each member expression is
re-read exactly as the source does; the in-place mutation of the
source becomes a functional read-modify-write (the document is a tree,
so there is no aliasing). -/
def ensureStep1 (config : JValue) : Except Unit JValue := do
  let a0 ← jsGet config "agents"
  if truthy a0 then pure config else jsSet config "agents" (JValue.obj [])

/-- Line 25: `if (!config.agents.defaults) config.agents.defaults = \x7b\x7d;` -/
def ensureStep2 (config : JValue) : Except Unit JValue := do
  let a1 ← jsGet config "agents"
  let d1 ← jsGetOpt a1 "defaults"
  if truthy d1 then pure config else do
    let a1' ← jsSetOpt a1 "defaults" (JValue.obj [])
    jsSet config "agents" a1'

/-- Line 26:
`if (!config.agents.defaults.sandbox) config.agents.defaults.sandbox = \x7b\x7d;` -/
def ensureStep3 (config : JValue) : Except Unit JValue := do
  let a2 ← jsGet config "agents"
  let d2 ← jsGetOpt a2 "defaults"
  let s2 ← jsGetOpt d2 "sandbox"
  if truthy s2 then pure config else do
    let d2' ← jsSetOpt d2 "sandbox" (JValue.obj [])
    let a2' ← jsSetOpt a2 "defaults" d2'
    jsSet config "agents" a2'

/-- Lines 24-26 in sequence. -/
def ensureStructure (config : JValue) : Except Unit JValue := do
  let c1 ← ensureStep1 config
  let c2 ← ensureStep2 c1
  ensureStep3 c2

/-- Line 31 of `config-init.js`:
`config.agents.defaults.sandbox.workspaceRoot = hostWorkspaceRoot;` -/
def setWorkspaceRoot (config : JValue) (hostWorkspaceRoot : String) :
    Except Unit JValue := do
  let a ← jsGet config "agents"
  let d ← jsGetOpt a "defaults"
  let s ← jsGetOpt d "sandbox"
  let s' ← jsSetOpt s "workspaceRoot" (JValue.str hostWorkspaceRoot)
  let d' ← jsSetOpt d "sandbox" s'
  let a' ← jsSetOpt a "defaults" d'
  jsSet config "agents" a'

/-- Line 36 of `config-init.js`:
`config.agents.defaults.workspace = "/workspace";` -/
def setWorkspace (config : JValue) : Except Unit JValue := do
  let a ← jsGet config "agents"
  let d ← jsGetOpt a "defaults"
  let d' ← jsSetOpt d "workspace" (JValue.str "/workspace")
  let a' ← jsSetOpt a "defaults" d'
  jsSet config "agents" a'

/-- The whole in-memory patch (lines 24-36): structure normalization
followed by the two field assignments. -/
def patch (config : JValue) (hostWorkspaceRoot : String) : Except Unit JValue := do
  let c1 ← ensureStructure config
  let c2 ← setWorkspaceRoot c1 hostWorkspaceRoot
  setWorkspace c2

/-! ## The relaxed parse

Line 21 of `config-init.js` parses the file with
`(new Function('return ' + configRaw))()`, delegating the parsing
algorithm to the JavaScript engine.  That algorithm is not part of this
repository, so it is modelled from the spec. -/

/-- Whitespace recognised between tokens. -/
def isWsChar (c : Char) : Bool :=
c = ' ' || c = '\n' || c = '\t' || c = '\r'

/-- Drop the remainder of a `//` line comment (up to the next newline). -/
def dropLineComment : List Char → List Char
| [] => []
| '\n' :: rest => '\n' :: rest
| _ :: rest => dropLineComment rest

/-- Drop the remainder of a `/* ... */` block comment; `none` if the
comment is unterminated. -/
def dropBlockComment : List Char → Option (List Char)
| [] => none
| '*' :: '/' :: rest => some rest
| _ :: rest => dropBlockComment rest

/-- Skip whitespace and comments; fails on an unterminated block
comment or when out of fuel. -/
def skipWs : Nat → List Char → Except Unit (List Char)
| 0, _ => Except.error ()
| Nat.succ f, cs =>
  match cs with
  | [] => Except.ok []
  | '/' :: '/' :: rest => skipWs f (dropLineComment rest)
  | '/' :: '*' :: rest =>
      match dropBlockComment rest with
      | none => Except.error ()
      | some rest2 => skipWs f rest2
  | c :: rest => if isWsChar c then skipWs f rest else Except.ok cs

/-- Decode one string escape character. -/
def unescape (c : Char) : Option Char :=
if c = 'n' then some '\n'
else if c = 't' then some '\t'
else if c = 'r' then some '\r'
else if c = '"' then some '"'
else if c = '\\' then some '\\'
else if c = '/' then some '/'
else none

/-- Body of a double-quoted string, after the opening quote. -/
def pStringBody : List Char → String → Option (String × List Char)
| [], _ => none
| '"' :: rest, acc => some (acc, rest)
| '\\' :: c :: rest, acc =>
    match unescape c with
    | some c' => pStringBody rest (acc.push c')
    | none => none
| ['\\'], _ => none
| c :: rest, acc => pStringBody rest (acc.push c)

def isIdentStart (c : Char) : Bool := c.isAlpha || c = '_' || c = '$'

def isIdentChar (c : Char) : Bool := c.isAlphanum || c = '_' || c = '$'

/-- An unquoted object key (a JavaScript identifier). -/
def pIdent : List Char → Option (String × List Char)
| [] => none
| c :: rest =>
    if isIdentStart c then
      let p := rest.span isIdentChar
      some (String.mk (c :: p.1), p.2)
    else none

/-- Expect the given literal characters at the head of the input. -/
def chopLit : List Char → List Char → Option (List Char)
| [], cs => some cs
| p :: ps, c :: cs => if c = p then chopLit ps cs else none
| _ :: _, [] => none

def digitsToNat (ds : List Char) : Nat :=
ds.foldl (fun a c => a * 10 + (c.toNat - 48)) 0

/-- An integer literal (optional minus sign, then digits). -/
def pNumber : List Char → Option (JValue × List Char)
| '-' :: rest =>
    let p := rest.span Char.isDigit
    if p.1.isEmpty then none
    else some (JValue.num (-(digitsToNat p.1 : Int)), p.2)
| cs =>
    let p := cs.span Char.isDigit
    if p.1.isEmpty then none
    else some (JValue.num ((digitsToNat p.1 : Int)), p.2)

mutual

/-- One value of the relaxed dialect. -/
def pValue : Nat → List Char → Except Unit (JValue × List Char)
| 0, _ => Except.error ()
| Nat.succ f, cs0 => do
  let cs ← skipWs (cs0.length + 1) cs0
  match cs with
  | '\x7b' :: rest => pMembers f rest []
  | '[' :: rest => pElems f rest []
  | '"' :: rest =>
      match pStringBody rest "" with
      | some (s, rest2) => Except.ok (JValue.str s, rest2)
      | none => Except.error ()
  | 't' :: rest =>
      match chopLit ['r', 'u', 'e'] rest with
      | some rest2 => Except.ok (JValue.bool true, rest2)
      | none => Except.error ()
  | 'f' :: rest =>
      match chopLit ['a', 'l', 's', 'e'] rest with
      | some rest2 => Except.ok (JValue.bool false, rest2)
      | none => Except.error ()
  | 'n' :: rest =>
      match chopLit ['u', 'l', 'l'] rest with
      | some rest2 => Except.ok (JValue.null, rest2)
      | none => Except.error ()
  | _ =>
      match pNumber cs with
      | some r => Except.ok r
      | none => Except.error ()

/-- Members of an object literal, after the opening brace.  Duplicate
keys follow JavaScript object-literal semantics: the later value wins,
at the position of the first occurrence.  A trailing comma is allowed,
as in a JavaScript object literal. -/
def pMembers : Nat → List Char → List (String × JValue) →
    Except Unit (JValue × List Char)
| 0, _, _ => Except.error ()
| Nat.succ f, cs0, acc => do
  let cs ← skipWs (cs0.length + 1) cs0
  match cs with
  | '\x7d' :: rest => Except.ok (JValue.obj acc, rest)
  | _ => do
    let kr ←
      match cs with
      | '"' :: rest =>
          match pStringBody rest "" with
          | some kr => Except.ok kr
          | none => Except.error ()
      | _ =>
          match pIdent cs with
          | some kr => Except.ok kr
          | none => Except.error ()
    let cs3 ← skipWs (kr.2.length + 1) kr.2
    match cs3 with
    | ':' :: rest3 => do
        let vr ← pValue f rest3
        let acc2 := setKey acc kr.1 vr.1
        let cs5 ← skipWs (vr.2.length + 1) vr.2
        match cs5 with
        | ',' :: rest5 => pMembers f rest5 acc2
        | '\x7d' :: rest5 => Except.ok (JValue.obj acc2, rest5)
        | _ => Except.error ()
    | _ => Except.error ()

/-- Elements of an array literal, after the opening bracket. -/
def pElems : Nat → List Char → List JValue → Except Unit (JValue × List Char)
| 0, _, _ => Except.error ()
| Nat.succ f, cs0, acc => do
  let cs ← skipWs (cs0.length + 1) cs0
  match cs with
  | ']' :: rest => Except.ok (JValue.arr acc [], rest)
  | _ => do
    let vr ← pValue f cs
    let cs5 ← skipWs (vr.2.length + 1) vr.2
    match cs5 with
    | ',' :: rest5 => pElems f rest5 (acc ++ [vr.1])
    | ']' :: rest5 => Except.ok (JValue.arr (acc ++ [vr.1]) [], rest5)
    | _ => Except.error ()

end

/-- Modelled from the spec: line 21 of `config-init.js` evaluates the
file's text with the JavaScript `Function` constructor, whose parsing
algorithm is not part of this repository.  Per the spec it is "a
permissive JSON dialect that tolerates comments and unquoted object
keys (a superset of strict JSON)"; this parser accepts exactly that
dialect (with integer numeric literals) and fails on anything else. -/
def relaxedParse (s : String) : Except Unit JValue := do
  let cs := s.toList
  let vr ← pValue (cs.length + 1) cs
  let rest ← skipWs (vr.2.length + 1) vr.2
  match rest with
  | [] => Except.ok vr.1
  | _ => Except.error ()

/-! ## Serialization

Line 41 of `config-init.js` writes `JSON.stringify(config, null, 2)`:
strict JSON with a two-space gap. -/

def hexDigit (n : Nat) : Char :=
if n < 10 then Char.ofNat (48 + n) else Char.ofNat (87 + n)

/-- Escape one character of a JSON string the way `JSON.stringify`
does: quote, backslash and control characters are escaped, everything
else is emitted verbatim. -/
def escChar (c : Char) : String :=
if c = '"' then "\\\""
else if c = '\\' then "\\\\"
else if c = '\n' then "\\n"
else if c = '\r' then "\\r"
else if c = '\t' then "\\t"
else if c = '\x08' then "\\b"
else if c = '\x0c' then "\\f"
else if c.toNat < 32 then
  "\\u00" ++ String.singleton (hexDigit (c.toNat / 16)) ++
    String.singleton (hexDigit (c.toNat % 16))
else String.singleton c

/-- A JSON string literal for `s`. -/
def quoteStr (s : String) : String :=
"\"" ++ (s.data.map escChar).foldl (fun acc piece => acc ++ piece) "" ++ "\""

/-- Join pieces with a separator. -/
def joinSep (sep : String) : List String → String
| [] => ""
| [x] => x
| x :: y :: xs => x ++ sep ++ joinSep sep (y :: xs)

mutual

/-- Total number of nodes of a value (strictly exceeds its depth). -/
def jsize : JValue → Nat
| JValue.null => 1
| JValue.bool _ => 1
| JValue.num _ => 1
| JValue.str _ => 1
| JValue.arr es ps => 1 + jsizeElems es + jsizeFields ps
| JValue.obj fs => 1 + jsizeFields fs

/-- Total number of nodes of a list of values. -/
def jsizeElems : List JValue → Nat
| [] => 0
| v :: vs => jsize v + jsizeElems vs

/-- Total number of nodes of a field list. -/
def jsizeFields : List (String × JValue) → Nat
| [] => 0
| kv :: kvs => jsize kv.2 + jsizeFields kvs

end

/-- `JSON.stringify(v, null, 2)` at nesting indent `ind`, with fuel for
the recursion depth.  Named properties of arrays are dropped, as
`JSON.stringify` drops them. -/
def sValF : Nat → String → JValue → String
| 0, _, _ => ""
| Nat.succ f, ind, v =>
  match v with
  | JValue.null => "null"
  | JValue.bool true => "true"
  | JValue.bool false => "false"
  | JValue.num n => toString n
  | JValue.str s => quoteStr s
  | JValue.arr es _ =>
      match es with
      | [] => "[]"
      | _ =>
          let items := es.map (fun e => (ind ++ "  ") ++ sValF f (ind ++ "  ") e)
          "[\n" ++ joinSep ",\n" items ++ "\n" ++ ind ++ "]"
  | JValue.obj fs =>
      match fs with
      | [] => "\x7b\x7d"
      | _ =>
          let items := fs.map (fun kv =>
            (ind ++ "  ") ++ quoteStr kv.1 ++ ": " ++ sValF f (ind ++ "  ") kv.2)
          "\x7b\n" ++ joinSep ",\n" items ++ "\n" ++ ind ++ "\x7d"

/-- The serialized form written back to disk: `JSON.stringify(v, null, 2)`.
The fuel `jsize v` strictly exceeds the nesting depth of `v`, so the
out-of-fuel branch is never taken. -/
def stringify (v : JValue) : String := sValF (jsize v) "" v

/-! ## The script

The remainder of `config-init.js`: environment-variable resolution, the
early-exit guards, the parse / patch / write pipeline, the `catch`
block and the exit codes.  The filesystem is modelled as an
association list from paths to file contents. -/

/-- Environment variables read by the script (lines 4-5). -/
structure Env where
  openclawConfigPath : Option String
  hostWorkspaceRoot : Option String

/-- The fixed fallback path of line 4. -/
def defaultConfigPath : String := "/root/.openclaw/openclaw.json"

/-- `process.env.OPENCLAW_CONFIG_PATH || '/root/.openclaw/openclaw.json'`:
the JavaScript `||` falls back both when the variable is unset and when
it is the empty string. -/
def resolveConfigPath (env : Env) : String :=
match env.openclawConfigPath with
| some p => if p = "" then defaultConfigPath else p
| none => defaultConfigPath

/-- Severity of a console message. -/
inductive LogLevel where
| warn
| error
| info

/-- Observable outcome of one invocation: exit status, final state of
the disk, console output, and how many file writes were performed. -/
structure RunResult where
  exitCode : Nat
  files : List (String × String)
  logs : List (LogLevel × String)
  writes : Nat

/-- Line 8's warning text. -/
def warnMsgNoRoot : String :=
"HOST_WORKSPACE_ROOT not set. Skipping sandbox workspaceRoot injection."

/-- Line 46's error-log text (the caught exception is appended by
`console.error`; only the fixed part is modelled). -/
def failMsg : String := "Failed to update config:"

/-- The whole script, lines 4-48 of `config-init.js`. -/
def runScript (env : Env) (disk : List (String × String)) : RunResult :=
  let configPath := resolveConfigPath env
  match env.hostWorkspaceRoot with
  | none => ⟨0, disk, [(LogLevel.warn, warnMsgNoRoot)], 0⟩
  | some hostWorkspaceRoot =>
    if hostWorkspaceRoot = "" then ⟨0, disk, [(LogLevel.warn, warnMsgNoRoot)], 0⟩
    else
      match lookupKey disk configPath with
      | none =>
          ⟨0, disk, [(LogLevel.error, "Config file not found at " ++ configPath)], 0⟩
      | some configRaw =>
        match relaxedParse configRaw with
        | Except.error _ => ⟨1, disk, [(LogLevel.error, failMsg)], 0⟩
        | Except.ok config =>
          match ensureStructure config with
          | Except.error _ => ⟨1, disk, [(LogLevel.error, failMsg)], 0⟩
          | Except.ok c1 =>
            let log1 := (LogLevel.info,
              "Injecting sandbox.workspaceRoot = " ++ hostWorkspaceRoot)
            match setWorkspaceRoot c1 hostWorkspaceRoot with
            | Except.error _ => ⟨1, disk, [log1, (LogLevel.error, failMsg)], 0⟩
            | Except.ok c2 =>
              let log2 := (LogLevel.info, "Setting internal workspace = /workspace")
              match setWorkspace c2 with
              | Except.error _ =>
                  ⟨1, disk, [log1, log2, (LogLevel.error, failMsg)], 0⟩
              | Except.ok c3 =>
                  ⟨0, setKey disk configPath (stringify c3),
                    [log1, log2, (LogLevel.info, "Config updated successfully.")], 1⟩

/-! ## Derived notions used to state the claims -/

/-- Fields of a read result when it is an object, `[]` otherwise.  This
is the field list the normalization continues from: a falsy or missing
value is replaced by an empty object, a truthy object is kept. -/
def fieldsOf : Option JValue → List (String × JValue)
| some (JValue.obj fs) => fs
| _ => []

/-- A value is acceptable at one level of the `agents.defaults.sandbox`
chain when it is missing, falsy (so the script replaces it), or a plain
object (so the script keeps it).  Truthy primitives and arrays are
excluded: they make the strict-mode assignments throw or silently lose
the injected fields at serialization. -/
def okLevel : Option JValue → Bool
| none => true
| some JValue.null => true
| some (JValue.bool b) => !b
| some (JValue.num n) => n == 0
| some (JValue.str s) => s == ""
| some (JValue.arr _ _) => false
| some (JValue.obj _) => true

/-- A valid configuration document: a top-level object whose
`agents`, `agents.defaults` and `agents.defaults.sandbox` values, where
present and truthy, are plain objects. -/
def ValidDoc : JValue → Bool
| JValue.obj fs =>
    okLevel (lookupKey fs "agents") &&
    okLevel (lookupKey (fieldsOf (lookupKey fs "agents")) "defaults") &&
    okLevel (lookupKey (fieldsOf (lookupKey (fieldsOf (lookupKey fs "agents"))
      "defaults")) "sandbox")
| _ => false

/-- Closed form of the structure normalization on valid documents. -/
def ensureSimple : JValue → JValue
| JValue.obj fs =>
    let afs := fieldsOf (lookupKey fs "agents")
    let dfs := fieldsOf (lookupKey afs "defaults")
    let sfs := fieldsOf (lookupKey dfs "sandbox")
    JValue.obj (setKey fs "agents" (JValue.obj (setKey afs "defaults"
      (JValue.obj (setKey dfs "sandbox" (JValue.obj sfs))))))
| v => v

/-- Closed form of the whole patch on valid documents. -/
def patchSimple (d : JValue) (r : String) : JValue :=
match d with
| JValue.obj fs =>
    let afs := fieldsOf (lookupKey fs "agents")
    let dfs := fieldsOf (lookupKey afs "defaults")
    let sfs := fieldsOf (lookupKey dfs "sandbox")
    JValue.obj (setKey fs "agents" (JValue.obj (setKey afs "defaults"
      (JValue.obj (setKey
        (setKey dfs "sandbox"
          (JValue.obj (setKey sfs "workspaceRoot" (JValue.str r))))
        "workspace" (JValue.str "/workspace"))))))
| v => v

/-- Named-property view of a value (objects and arrays have properties,
primitives have none of the relevant ones). -/
def getField (v : JValue) (k : String) : Option JValue :=
match v with
| JValue.obj fs => lookupKey fs k
| JValue.arr _ ps => lookupKey ps k
| _ => none

/-- Follow a path of property names from a value. -/
def jpath : JValue → List String → Option JValue
| v, [] => some v
| v, k :: ks => (getField v k).bind (fun w => jpath w ks)

/-- A value that can carry named properties (a JavaScript object,
including arrays). -/
def isObjLike : JValue → Bool
| JValue.obj _ => true
| JValue.arr _ _ => true
| _ => false

/-- The named properties of a value. -/
def propsOf : JValue → List (String × JValue)
| JValue.obj fs => fs
| JValue.arr _ ps => ps
| _ => []

/-- A truthy non-object primitive (`true`, a non-zero number, a
non-empty string). -/
def truthyPrim (v : JValue) : Bool := truthy (some v) && !(isObjLike v)

/-- Parse followed by the in-memory patch: the part of the pipeline
between reading and writing the file. -/
def patchPipeline (r content : String) : Except Unit JValue := do
  let c ← relaxedParse content
  patch c r

/-- The effective host root: the value of `HOST_WORKSPACE_ROOT` when it
is set and non-empty, otherwise nothing (the script's `!hostWorkspaceRoot`
guard treats unset and empty alike). -/
def getHostRoot (env : Env) : Option String :=
match env.hostWorkspaceRoot with
| none => none
| some r => if r = "" then none else some r

/-! ## Association-list and JavaScript-operation lemmas -/

theorem lookupKey_setKey {α : Type} (xs : List (String × α)) (key k : String)
    (v : α) :
    lookupKey (setKey xs key v) k = if k = key then some v else lookupKey xs k := by
  induction xs with
  | nil =>
      by_cases h : k = key
      · subst h
        simp [setKey, lookupKey]
      · have h' : ¬ key = k := fun hh => h hh.symm
        simp [setKey, lookupKey, h, h']
  | cons hd tl ih =>
      obtain ⟨k', w⟩ := hd
      by_cases hk : k' = key
      · subst hk
        by_cases h2 : k = k'
        · subst h2
          simp [setKey, lookupKey]
        · have h2' : ¬ k' = k := fun hh => h2 hh.symm
          simp [setKey, lookupKey, h2, h2']
      · by_cases h2 : k' = k
        · subst h2
          simp [setKey, lookupKey, hk]
        · simp [setKey, lookupKey, hk, h2, ih]

theorem setKey_setKey {α : Type} (xs : List (String × α)) (key : String)
    (v w : α) : setKey (setKey xs key v) key w = setKey xs key w := by
  induction xs with
  | nil => simp [setKey]
  | cons hd tl ih =>
      obtain ⟨k', x⟩ := hd
      by_cases h : k' = key <;> simp [setKey, h, ih]

theorem setKey_of_lookupKey_eq {α : Type} (xs : List (String × α))
    (key : String) (v : α) (h : lookupKey xs key = some v) :
    setKey xs key v = xs := by
  induction xs with
  | nil => simp [lookupKey] at h
  | cons hd tl ih =>
      obtain ⟨k', x⟩ := hd
      by_cases hk : k' = key
      · subst hk
        simp [lookupKey] at h
        simp [setKey, h]
      · simp [lookupKey, hk] at h
        simp [setKey, hk, ih h]

@[simp] theorem jsGet_obj (fs : List (String × JValue)) (k : String) :
    jsGet (JValue.obj fs) k = Except.ok (lookupKey fs k) := rfl

@[simp] theorem jsGet_arr (es : List JValue) (ps : List (String × JValue))
    (k : String) : jsGet (JValue.arr es ps) k = Except.ok (lookupKey ps k) := rfl

@[simp] theorem jsSet_obj (fs : List (String × JValue)) (k : String)
    (x : JValue) :
    jsSet (JValue.obj fs) k x = Except.ok (JValue.obj (setKey fs k x)) := rfl

@[simp] theorem jsGetOpt_some (v : JValue) (k : String) :
    jsGetOpt (some v) k = jsGet v k := rfl

@[simp] theorem jsGetOpt_none (k : String) :
    jsGetOpt none k = Except.error () := rfl

@[simp] theorem jsSetOpt_some (v : JValue) (k : String) (x : JValue) :
    jsSetOpt (some v) k x = jsSet v k x := rfl

@[simp] theorem jsSetOpt_none (k : String) (x : JValue) :
    jsSetOpt none k x = Except.error () := rfl

@[simp] theorem except_bind_ok {ε α β : Type} (a : α) (f : α → Except ε β) :
    (Except.ok a >>= f) = f a := rfl

@[simp] theorem except_bind_err {ε α β : Type} (e : ε) (f : α → Except ε β) :
    (Except.error e >>= f : Except ε β) = Except.error e := rfl

@[simp] theorem except_pure {ε α : Type} (a : α) :
    (pure a : Except ε α) = Except.ok a := rfl

/-- A truthy value satisfying `okLevel` is an object, and `fieldsOf`
returns its fields. -/
theorem okLevel_truthy (v : Option JValue) (hok : okLevel v = true)
    (ht : truthy v = true) : v = some (JValue.obj (fieldsOf v)) := by
  match v with
  | none => simp [truthy] at ht
  | some JValue.null => simp [truthy] at ht
  | some (JValue.bool b) =>
      simp [truthy] at ht
      simp [okLevel, ht] at hok
  | some (JValue.num n) =>
      simp [truthy] at ht
      simp [okLevel, ht] at hok
  | some (JValue.str s) =>
      simp [truthy] at ht
      simp [okLevel, ht] at hok
  | some (JValue.arr es ps) => simp [okLevel] at hok
  | some (JValue.obj fs) => simp [fieldsOf]

/-- A non-truthy value contributes no fields. -/
theorem fieldsOf_of_not_truthy (v : Option JValue) (ht : truthy v = false) :
    fieldsOf v = [] := by
  match v with
  | none => simp [fieldsOf]
  | some JValue.null => simp [fieldsOf]
  | some (JValue.bool b) => simp [fieldsOf]
  | some (JValue.num n) => simp [fieldsOf]
  | some (JValue.str s) => simp [fieldsOf]
  | some (JValue.arr es ps) => simp [truthy] at ht
  | some (JValue.obj fs) => simp [truthy] at ht

/-- First normalization statement, uniform form: under `okLevel`, both
branches bind `agents` to an object carrying `fieldsOf` of the old
value. -/
theorem ensure_step1 (fs : List (String × JValue))
    (h : okLevel (lookupKey fs "agents") = true) :
    (if truthy (lookupKey fs "agents") then (pure (JValue.obj fs) : Except Unit JValue)
     else jsSet (JValue.obj fs) "agents" (JValue.obj [])) =
    Except.ok (JValue.obj (setKey fs "agents"
      (JValue.obj (fieldsOf (lookupKey fs "agents"))))) := by
  by_cases ht : truthy (lookupKey fs "agents")
  · have hv := okLevel_truthy _ h ht
    rw [if_pos ht, setKey_of_lookupKey_eq fs "agents" _ hv]
    rfl
  · rw [if_neg ht, fieldsOf_of_not_truthy _ (Bool.of_not_eq_true ht)]
    simp [jsSet]

/-- Second normalization statement, uniform form. -/
theorem ensure_step2 (fs1 afs : List (String × JValue))
    (hA : lookupKey fs1 "agents" = some (JValue.obj afs))
    (h : okLevel (lookupKey afs "defaults") = true) :
    (if truthy (lookupKey afs "defaults") then (pure (JValue.obj fs1) : Except Unit JValue)
     else
       jsSetOpt (some (JValue.obj afs)) "defaults" (JValue.obj []) >>= fun a' =>
       jsSet (JValue.obj fs1) "agents" a') =
    Except.ok (JValue.obj (setKey fs1 "agents" (JValue.obj (setKey afs "defaults"
      (JValue.obj (fieldsOf (lookupKey afs "defaults"))))))) := by
  by_cases ht : truthy (lookupKey afs "defaults")
  · have hv := okLevel_truthy _ h ht
    rw [if_pos ht, setKey_of_lookupKey_eq afs "defaults" _ hv,
        setKey_of_lookupKey_eq fs1 "agents" _ hA]
    rfl
  · rw [if_neg ht, fieldsOf_of_not_truthy _ (Bool.of_not_eq_true ht)]
    simp [jsSet]

/-- Third normalization statement, uniform form. -/
theorem ensure_step3 (fs2 afs2 dfs2 : List (String × JValue))
    (hA : lookupKey fs2 "agents" = some (JValue.obj afs2))
    (hD : lookupKey afs2 "defaults" = some (JValue.obj dfs2))
    (h : okLevel (lookupKey dfs2 "sandbox") = true) :
    (if truthy (lookupKey dfs2 "sandbox") then (pure (JValue.obj fs2) : Except Unit JValue)
     else
       jsSetOpt (some (JValue.obj dfs2)) "sandbox" (JValue.obj []) >>= fun d' =>
       jsSetOpt (some (JValue.obj afs2)) "defaults" d' >>= fun a' =>
       jsSet (JValue.obj fs2) "agents" a') =
    Except.ok (JValue.obj (setKey fs2 "agents" (JValue.obj (setKey afs2 "defaults"
      (JValue.obj (setKey dfs2 "sandbox"
        (JValue.obj (fieldsOf (lookupKey dfs2 "sandbox"))))))))) := by
  by_cases ht : truthy (lookupKey dfs2 "sandbox")
  · have hv := okLevel_truthy _ h ht
    rw [if_pos ht, setKey_of_lookupKey_eq dfs2 "sandbox" _ hv,
        setKey_of_lookupKey_eq afs2 "defaults" _ hD,
        setKey_of_lookupKey_eq fs2 "agents" _ hA]
    rfl
  · rw [if_neg ht, fieldsOf_of_not_truthy _ (Bool.of_not_eq_true ht)]
    simp [jsSet]

@[simp] theorem lookupKey_setKey_self {α : Type} (xs : List (String × α))
    (k : String) (v : α) : lookupKey (setKey xs k v) k = some v := by
  simp [lookupKey_setKey]

theorem lookupKey_setKey_ne {α : Type} (xs : List (String × α))
    (key k : String) (v : α) (h : ¬ k = key) :
    lookupKey (setKey xs key v) k = lookupKey xs k := by
  simp [lookupKey_setKey, h]

/-- On valid documents the normalization never throws and equals its
closed form. -/
theorem ensureStructure_eq_simple (d : JValue) (h : ValidDoc d = true) :
    ensureStructure d = Except.ok (ensureSimple d) := by
  match d with
  | JValue.null => simp [ValidDoc] at h
  | JValue.bool b => simp [ValidDoc] at h
  | JValue.num n => simp [ValidDoc] at h
  | JValue.str s => simp [ValidDoc] at h
  | JValue.arr es ps => simp [ValidDoc] at h
  | JValue.obj fs =>
      simp only [ValidDoc, Bool.and_eq_true] at h
      obtain ⟨⟨h1, h2⟩, h3⟩ := h
      unfold ensureStructure ensureStep1 ensureStep2 ensureStep3
      simp only [jsGet_obj, except_bind_ok]
      rw [ensure_step1 fs h1]
      simp only [except_bind_ok, jsGet_obj, lookupKey_setKey_self,
        jsGetOpt_some]
      rw [ensure_step2 _ _ (lookupKey_setKey_self _ _ _) h2]
      simp only [except_bind_ok, jsGet_obj, lookupKey_setKey_self,
        jsGetOpt_some]
      rw [ensure_step3 _ _ _ (lookupKey_setKey_self _ _ _)
        (lookupKey_setKey_self _ _ _) h3]
      simp [ensureSimple, setKey_setKey]

/-- On valid documents the whole patch never throws and equals its
closed form. -/
theorem patch_eq_simple (d : JValue) (r : String) (h : ValidDoc d = true) :
    patch d r = Except.ok (patchSimple d r) := by
  match d with
  | JValue.null => simp [ValidDoc] at h
  | JValue.bool b => simp [ValidDoc] at h
  | JValue.num n => simp [ValidDoc] at h
  | JValue.str s => simp [ValidDoc] at h
  | JValue.arr es ps => simp [ValidDoc] at h
  | JValue.obj fs =>
      unfold patch
      rw [ensureStructure_eq_simple _ h]
      simp only [except_bind_ok]
      unfold setWorkspaceRoot setWorkspace ensureSimple patchSimple
      simp [lookupKey_setKey_self, lookupKey_setKey, setKey_setKey]

/-- The patched document is again valid. -/
theorem validDoc_patchSimple (d : JValue) (r : String) (h : ValidDoc d = true) :
    ValidDoc (patchSimple d r) = true := by
  match d with
  | JValue.null => simp [ValidDoc] at h
  | JValue.bool b => simp [ValidDoc] at h
  | JValue.num n => simp [ValidDoc] at h
  | JValue.str s => simp [ValidDoc] at h
  | JValue.arr es ps => simp [ValidDoc] at h
  | JValue.obj fs =>
      simp [patchSimple, ValidDoc, fieldsOf, okLevel,
        lookupKey_setKey_self, lookupKey_setKey]

/-- The closed form is idempotent at a fixed host root. -/
theorem patchSimple_idem (d : JValue) (r : String) (h : ValidDoc d = true) :
    patchSimple (patchSimple d r) r = patchSimple d r := by
  match d with
  | JValue.null => simp [ValidDoc] at h
  | JValue.bool b => simp [ValidDoc] at h
  | JValue.num n => simp [ValidDoc] at h
  | JValue.str s => simp [ValidDoc] at h
  | JValue.arr es ps => simp [ValidDoc] at h
  | JValue.obj fs =>
      simp [patchSimple, fieldsOf, lookupKey_setKey_self, lookupKey_setKey,
        setKey_setKey, setKey_of_lookupKey_eq]

/-! ## C1 -/

/-- C1: for every valid configuration document `d` and non-empty host
root `r`, the patch succeeds and produces a document whose
`agents.defaults.sandbox.workspaceRoot` equals `r` verbatim and whose
`agents.defaults.workspace` equals the literal `"/workspace"`, while
every key of `d` not on the patched path keeps its exact value. -/
theorem c1_patch_injects_and_preserves (d : JValue) (r : String)
    (hd : ValidDoc d = true) (hr : r ≠ "") :
    ∃ d', patch d r = Except.ok d' ∧
      jpath d' ["agents", "defaults", "sandbox", "workspaceRoot"]
        = some (JValue.str r) ∧
      jpath d' ["agents", "defaults", "workspace"]
        = some (JValue.str "/workspace") ∧
      (∀ k v, getField d k = some v → k ≠ "agents" → getField d' k = some v) ∧
      (∀ afs k v, getField d "agents" = some (JValue.obj afs) →
        lookupKey afs k = some v → k ≠ "defaults" →
        jpath d' ["agents", k] = some v) ∧
      (∀ afs dfs k v, getField d "agents" = some (JValue.obj afs) →
        lookupKey afs "defaults" = some (JValue.obj dfs) →
        lookupKey dfs k = some v → k ≠ "sandbox" → k ≠ "workspace" →
        jpath d' ["agents", "defaults", k] = some v) ∧
      (∀ afs dfs sfs k v, getField d "agents" = some (JValue.obj afs) →
        lookupKey afs "defaults" = some (JValue.obj dfs) →
        lookupKey dfs "sandbox" = some (JValue.obj sfs) →
        lookupKey sfs k = some v → k ≠ "workspaceRoot" →
        jpath d' ["agents", "defaults", "sandbox", k] = some v) := by
  obtain ⟨fs, rfl⟩ : ∃ fs, d = JValue.obj fs := by
    match d with
    | JValue.obj fs => exact ⟨fs, rfl⟩
    | JValue.null => simp [ValidDoc] at hd
    | JValue.bool b => simp [ValidDoc] at hd
    | JValue.num n => simp [ValidDoc] at hd
    | JValue.str s => simp [ValidDoc] at hd
    | JValue.arr es ps => simp [ValidDoc] at hd
  refine ⟨patchSimple (JValue.obj fs) r, patch_eq_simple _ r hd, ?_, ?_, ?_, ?_, ?_, ?_⟩
  · simp [patchSimple, jpath, getField, lookupKey_setKey_self, lookupKey_setKey]
  · simp [patchSimple, jpath, getField, lookupKey_setKey_self, lookupKey_setKey]
  · intro k v hkv hne
    simp only [getField] at hkv
    simp only [patchSimple, getField]
    rw [lookupKey_setKey_ne _ _ _ _ hne]
    exact hkv
  · intro afs k v hag hkv hne
    simp only [getField] at hag
    simp [patchSimple, jpath, getField, hag, fieldsOf, lookupKey_setKey_self]
    rw [lookupKey_setKey_ne _ _ _ _ hne]
    simp [hkv]
  · intro afs dfs k v hag hdf hkv hne1 hne2
    simp only [getField] at hag
    simp [patchSimple, jpath, getField, hag, hdf, fieldsOf, lookupKey_setKey_self]
    rw [lookupKey_setKey_ne _ _ _ _ hne2, lookupKey_setKey_ne _ _ _ _ hne1]
    simp [hkv]
  · intro afs dfs sfs k v hag hdf hsb hkv hne
    simp only [getField] at hag
    simp [patchSimple, jpath, getField, hag, hdf, hsb, fieldsOf,
      lookupKey_setKey_self, lookupKey_setKey]
    rw [if_neg hne]
    exact hkv

/-! ## C2 -/

/-- C2 counterexample: in the document whose `agents` field exists with
value `null`, the normalization does not preserve the existing value —
the truthiness guard of line 24 replaces any falsy value, not only a
missing field. -/
theorem c2_counterexample :
    getField (JValue.obj [("agents", JValue.null)]) "agents"
      = some JValue.null ∧
    ¬ ∃ e, ensureStructure (JValue.obj [("agents", JValue.null)])
        = Except.ok e ∧ getField e "agents" = some JValue.null := by
  refine ⟨rfl, ?_⟩
  rintro ⟨e, he, hg⟩
  have hcomp : ensureStructure (JValue.obj [("agents", JValue.null)]) =
      Except.ok (JValue.obj [("agents", JValue.obj [("defaults",
        JValue.obj [("sandbox", JValue.obj [])])])]) := rfl
  rw [hcomp] at he
  injection he with he'
  subst he'
  simp [getField, lookupKey] at hg

/-- C2 amended: the normalization creates each of `agents`,
`agents.defaults` and `agents.defaults.sandbox` as an empty mapping
when the field is missing **or when its existing value is falsy**
(`null`, `false`, `0`, `""`); an existing truthy value (an object, for
valid documents) is preserved, with only missing levels filled in. -/
theorem c2_amended_normalization (d : JValue) (hd : ValidDoc d = true) :
    ∃ e, ensureStructure d = Except.ok e ∧ e = ensureSimple d ∧
      (∀ k v, getField d k = some v → k ≠ "agents" → getField e k = some v) ∧
      (∀ afs k v, getField d "agents" = some (JValue.obj afs) →
        lookupKey afs k = some v → k ≠ "defaults" →
        jpath e ["agents", k] = some v) ∧
      (∀ afs dfs k v, getField d "agents" = some (JValue.obj afs) →
        lookupKey afs "defaults" = some (JValue.obj dfs) →
        lookupKey dfs k = some v → k ≠ "sandbox" →
        jpath e ["agents", "defaults", k] = some v) ∧
      (∀ afs dfs sfs k v, getField d "agents" = some (JValue.obj afs) →
        lookupKey afs "defaults" = some (JValue.obj dfs) →
        lookupKey dfs "sandbox" = some (JValue.obj sfs) →
        lookupKey sfs k = some v →
        jpath e ["agents", "defaults", "sandbox", k] = some v) ∧
      (truthy (getField d "agents") = false →
        jpath e ["agents", "defaults", "sandbox"] = some (JValue.obj [])) := by
  obtain ⟨fs, rfl⟩ : ∃ fs, d = JValue.obj fs := by
    match d with
    | JValue.obj fs => exact ⟨fs, rfl⟩
    | JValue.null => simp [ValidDoc] at hd
    | JValue.bool b => simp [ValidDoc] at hd
    | JValue.num n => simp [ValidDoc] at hd
    | JValue.str s => simp [ValidDoc] at hd
    | JValue.arr es ps => simp [ValidDoc] at hd
  refine ⟨ensureSimple (JValue.obj fs), ensureStructure_eq_simple _ hd, rfl,
    ?_, ?_, ?_, ?_, ?_⟩
  · intro k v hkv hne
    simp only [getField] at hkv
    simp only [ensureSimple, getField]
    rw [lookupKey_setKey_ne _ _ _ _ hne]
    exact hkv
  · intro afs k v hag hkv hne
    simp only [getField] at hag
    simp [ensureSimple, jpath, getField, hag, fieldsOf, lookupKey_setKey_self]
    rw [lookupKey_setKey_ne _ _ _ _ hne]
    simp [hkv]
  · intro afs dfs k v hag hdf hkv hne
    simp only [getField] at hag
    simp [ensureSimple, jpath, getField, hag, hdf, fieldsOf,
      lookupKey_setKey_self]
    rw [lookupKey_setKey_ne _ _ _ _ hne]
    simp [hkv]
  · intro afs dfs sfs k v hag hdf hsb hkv
    simp only [getField] at hag
    simp [ensureSimple, jpath, getField, hag, hdf, hsb, fieldsOf,
      lookupKey_setKey_self, hkv]
  · intro hfa
    simp only [getField] at hfa
    have hfo := fieldsOf_of_not_truthy _ hfa
    have hd2 : fieldsOf (lookupKey (fieldsOf (lookupKey fs "agents"))
        "defaults") = [] := by rw [hfo]; rfl
    have hd3 : fieldsOf (lookupKey (fieldsOf (lookupKey (fieldsOf
        (lookupKey fs "agents")) "defaults")) "sandbox") = [] := by
      rw [hd2]; rfl
    simp [ensureSimple, jpath, getField, lookupKey_setKey_self,
      hfo, hd2, hd3, lookupKey]
    rfl

/-! ## C3 -/

/-- C3: applying the patch twice with the same host root yields the
same document as applying it once. -/
theorem c3_patch_idempotent (d : JValue) (r : String)
    (hd : ValidDoc d = true) (hr : r ≠ "") :
    ∃ d', patch d r = Except.ok d' ∧ patch d' r = Except.ok d' := by
  refine ⟨patchSimple d r, patch_eq_simple d r hd, ?_⟩
  rw [patch_eq_simple _ r (validDoc_patchSimple d r hd),
    patchSimple_idem d r hd]

/-! ## Object-likeness lemmas and the error behaviour of the patch -/

theorem truthy_objLike (v : JValue) (h : isObjLike v = true) :
    truthy (some v) = true := by
  cases v <;> simp [isObjLike] at h ⊢ <;> rfl

theorem jsGet_objLike (v : JValue) (h : isObjLike v = true) (k : String) :
    jsGet v k = Except.ok (lookupKey (propsOf v) k) := by
  cases v <;> first | rfl | simp [isObjLike] at h

theorem jsGet_prim (v : JValue) (hol : isObjLike v = false)
    (hnn : v ≠ JValue.null) (k : String) : jsGet v k = Except.ok none := by
  cases v with
  | null => exact absurd rfl hnn
  | bool b => rfl
  | num n => rfl
  | str s => rfl
  | arr es ps => simp [isObjLike] at hol
  | obj fs => simp [isObjLike] at hol

theorem jsSet_prim (v : JValue) (hol : isObjLike v = false) (k : String)
    (x : JValue) : jsSet v k x = Except.error () := by
  cases v with
  | null => rfl
  | bool b => rfl
  | num n => rfl
  | str s => rfl
  | arr es ps => simp [isObjLike] at hol
  | obj fs => simp [isObjLike] at hol

theorem truthyPrim_spec (p : JValue) (h : truthyPrim p = true) :
    p ≠ JValue.null ∧ isObjLike p = false ∧ truthy (some p) = true := by
  simp only [truthyPrim, Bool.and_eq_true] at h
  obtain ⟨ht, hol⟩ := h
  refine ⟨?_, ?_, ht⟩
  · intro he
    subst he
    simp [truthy] at ht
  · simpa using hol

theorem getField_some (v : JValue) (k : String) (w : JValue)
    (h : getField v k = some w) :
    isObjLike v = true ∧ lookupKey (propsOf v) k = some w := by
  cases v <;> simp [getField, isObjLike, propsOf] at h ⊢ <;> exact h

@[simp] theorem truthy_none : truthy none = false := rfl

theorem jpath_cons_some (v : JValue) (k : String) (ks : List String)
    (w : JValue) (h : jpath v (k :: ks) = some w) :
    ∃ u, getField v k = some u ∧ jpath u ks = some w := by
  cases hg : getField v k with
  | none => simp [jpath, hg] at h
  | some u =>
      refine ⟨u, rfl, ?_⟩
      simpa [jpath, hg] using h

theorem jpath_nil_some (v w : JValue) (h : jpath v [] = some w) : v = w := by
  simpa [jpath] using h

/-- The patch throws a `TypeError` whenever the document is not an
object, or one of `agents`, `agents.defaults`,
`agents.defaults.sandbox` is an existing truthy non-object primitive. -/
theorem patch_error_of_bad (c : JValue) (r : String)
    (hbad :
      isObjLike c = false ∨
      (∃ p, jpath c ["agents"] = some p ∧ truthyPrim p = true) ∨
      (∃ p, jpath c ["agents", "defaults"] = some p ∧ truthyPrim p = true) ∨
      (∃ p, jpath c ["agents", "defaults", "sandbox"] = some p ∧
        truthyPrim p = true)) :
    patch c r = Except.error () := by
  rcases hbad with hol | ⟨p, hp, htp⟩ | ⟨p, hp, htp⟩ | ⟨p, hp, htp⟩
  · cases c with
    | null => rfl
    | bool b => rfl
    | num n => rfl
    | str s => rfl
    | arr es ps => simp [isObjLike] at hol
    | obj fs => simp [isObjLike] at hol
  · obtain ⟨p', hgf, hnil⟩ := jpath_cons_some _ _ _ _ hp
    rw [← jpath_nil_some _ _ hnil] at htp
    obtain ⟨hOL, hlk⟩ := getField_some _ _ _ hgf
    obtain ⟨hnn, hpol, hpt⟩ := truthyPrim_spec _ htp
    have hg1 : jsGet c "agents" = Except.ok (some p') := by
      rw [jsGet_objLike c hOL, hlk]
    simp [patch, ensureStructure, ensureStep1, ensureStep2, hg1, hpt,
      jsGet_prim _ hpol hnn, jsSet_prim _ hpol]
  · obtain ⟨a, hga, hp2⟩ := jpath_cons_some _ _ _ _ hp
    obtain ⟨p', hgd, hnil⟩ := jpath_cons_some _ _ _ _ hp2
    rw [← jpath_nil_some _ _ hnil] at htp
    obtain ⟨hOLc, hlkc⟩ := getField_some _ _ _ hga
    obtain ⟨hOLa, hlka⟩ := getField_some _ _ _ hgd
    obtain ⟨hnn, hpol, hpt⟩ := truthyPrim_spec _ htp
    have hg1 : jsGet c "agents" = Except.ok (some a) := by
      rw [jsGet_objLike c hOLc, hlkc]
    have hg2 : jsGet a "defaults" = Except.ok (some p') := by
      rw [jsGet_objLike a hOLa, hlka]
    have hta : truthy (some a) = true := truthy_objLike a hOLa
    simp [patch, ensureStructure, ensureStep1, ensureStep2, ensureStep3,
      hg1, hg2, hta, hpt, jsGet_prim _ hpol hnn, jsSet_prim _ hpol]
  · obtain ⟨a, hga, hp2⟩ := jpath_cons_some _ _ _ _ hp
    obtain ⟨b, hgd, hp3⟩ := jpath_cons_some _ _ _ _ hp2
    obtain ⟨p', hgs, hnil⟩ := jpath_cons_some _ _ _ _ hp3
    rw [← jpath_nil_some _ _ hnil] at htp
    obtain ⟨hOLc, hlkc⟩ := getField_some _ _ _ hga
    obtain ⟨hOLa, hlka⟩ := getField_some _ _ _ hgd
    obtain ⟨hOLb, hlkb⟩ := getField_some _ _ _ hgs
    obtain ⟨hnn, hpol, hpt⟩ := truthyPrim_spec _ htp
    have hg1 : jsGet c "agents" = Except.ok (some a) := by
      rw [jsGet_objLike c hOLc, hlkc]
    have hg2 : jsGet a "defaults" = Except.ok (some b) := by
      rw [jsGet_objLike a hOLa, hlka]
    have hg3 : jsGet b "sandbox" = Except.ok (some p') := by
      rw [jsGet_objLike b hOLb, hlkb]
    have hta : truthy (some a) = true := truthy_objLike a hOLa
    have htb : truthy (some b) = true := truthy_objLike b hOLb
    simp [patch, ensureStructure, ensureStep1, ensureStep2, ensureStep3,
      setWorkspaceRoot, hg1, hg2, hg3, hta, htb, hpt,
      jsGet_prim _ hpol hnn, jsSet_prim _ hpol]

/-! ## Outcomes of a whole run -/

/-- When the host root is usable, the file exists, and the
parse-then-patch pipeline throws, the run exits 1 without touching the
disk. -/
theorem runScript_pipeline_error (env : Env) (disk : List (String × String))
    (r content : String)
    (hroot : env.hostWorkspaceRoot = some r) (hr : ¬ r = "")
    (hfile : lookupKey disk (resolveConfigPath env) = some content)
    (hpp : patchPipeline r content = Except.error ()) :
    (runScript env disk).exitCode = 1 ∧ (runScript env disk).files = disk ∧
    (runScript env disk).writes = 0 := by
  cases hparse : relaxedParse content with
  | error e =>
      cases e
      simp [runScript, hroot, hr, hfile, hparse]
  | ok c =>
      simp only [patchPipeline, hparse, except_bind_ok] at hpp
      unfold patch at hpp
      cases hens : ensureStructure c with
      | error e =>
          cases e
          simp [runScript, hroot, hr, hfile, hparse, hens]
      | ok c1 =>
          rw [hens, except_bind_ok] at hpp
          cases hswr : setWorkspaceRoot c1 r with
          | error e =>
              cases e
              simp [runScript, hroot, hr, hfile, hparse, hens, hswr]
          | ok c2 =>
              rw [hswr, except_bind_ok] at hpp
              cases hsw : setWorkspace c2 with
              | error e =>
                  cases e
                  simp [runScript, hroot, hr, hfile, hparse, hens, hswr, hsw]
              | ok c3 => rw [hsw] at hpp; cases hpp

/-- When the host root is usable, the file exists, and the
parse-then-patch pipeline succeeds, the run logs its progress, writes
the serialized patched document over the file exactly once, and exits
0. -/
theorem runScript_pipeline_ok (env : Env) (disk : List (String × String))
    (r content : String) (c2 : JValue)
    (hroot : env.hostWorkspaceRoot = some r) (hr : ¬ r = "")
    (hfile : lookupKey disk (resolveConfigPath env) = some content)
    (hpp : patchPipeline r content = Except.ok c2) :
    runScript env disk =
      ⟨0, setKey disk (resolveConfigPath env) (stringify c2),
        [(LogLevel.info, "Injecting sandbox.workspaceRoot = " ++ r),
         (LogLevel.info, "Setting internal workspace = /workspace"),
         (LogLevel.info, "Config updated successfully.")], 1⟩ := by
  cases hparse : relaxedParse content with
  | error e => rw [patchPipeline, hparse] at hpp; cases hpp
  | ok c =>
      simp only [patchPipeline, hparse, except_bind_ok] at hpp
      unfold patch at hpp
      cases hens : ensureStructure c with
      | error e => rw [hens] at hpp; cases hpp
      | ok c1 =>
          rw [hens, except_bind_ok] at hpp
          cases hswr : setWorkspaceRoot c1 r with
          | error e => rw [hswr] at hpp; cases hpp
          | ok ci =>
              rw [hswr, except_bind_ok] at hpp
              cases hsw : setWorkspace ci with
              | error e => rw [hsw] at hpp; cases hpp
              | ok c3 =>
                  rw [hsw] at hpp
                  injection hpp with hpp'
                  subst hpp'
                  simp [runScript, hroot, hr, hfile, hparse, hens, hswr, hsw]

/-! ## C4 -/

/-- C4: when the file's content fails to parse as the relaxed dialect,
the run exits non-zero and the file on disk is unchanged — no write is
performed. -/
theorem c4_parse_failure_aborts (env : Env) (disk : List (String × String))
    (r content : String)
    (hroot : env.hostWorkspaceRoot = some r) (hr : r ≠ "")
    (hfile : lookupKey disk (resolveConfigPath env) = some content)
    (hparse : relaxedParse content = Except.error ()) :
    (runScript env disk).exitCode = 1 ∧ (runScript env disk).files = disk ∧
    (runScript env disk).writes = 0 := by
  apply runScript_pipeline_error env disk r content hroot hr hfile
  rw [patchPipeline, hparse]
  rfl

/-! ## C5 -/

/-- C5: when `HOST_WORKSPACE_ROOT` is unset or empty, the run leaves
the disk byte-for-byte unchanged, performs no write, logs exactly the
warning, and exits 0 — whatever the state of the config file. -/
theorem c5_no_host_root_noop (env : Env) (disk : List (String × String))
    (h : env.hostWorkspaceRoot = none ∨ env.hostWorkspaceRoot = some "") :
    runScript env disk = ⟨0, disk, [(LogLevel.warn, warnMsgNoRoot)], 0⟩ := by
  rcases h with h | h <;> simp [runScript, h]

/-! ## C6 -/

/-- C6: when the resolved config path has no file, the run creates
nothing, modifies nothing, logs exactly one error-level message naming
the path, and exits 0. -/
theorem c6_missing_file_noop (env : Env) (disk : List (String × String))
    (r : String)
    (hroot : env.hostWorkspaceRoot = some r) (hr : r ≠ "")
    (hfile : lookupKey disk (resolveConfigPath env) = none) :
    runScript env disk =
      ⟨0, disk, [(LogLevel.error,
        "Config file not found at " ++ resolveConfigPath env)], 0⟩ := by
  simp [runScript, hroot, hr, hfile]

/-! ## C7 -/

/-- C7 counterexample: with config-file content `null` the parse
succeeds and no write is attempted (so no write failure occurs), yet
the run exits 1 — the claim's "non-zero exactly on parse failure or
write failure" misses the patch-step `TypeError`. -/
theorem c7_counterexample :
    relaxedParse "null" = Except.ok JValue.null ∧
    (runScript ⟨none, some "/r"⟩ [(defaultConfigPath, "null")]).exitCode = 1 ∧
    (runScript ⟨none, some "/r"⟩ [(defaultConfigPath, "null")]).writes = 0 :=
  ⟨rfl, rfl, rfl⟩

/-- C7 amended: the run exits 1 exactly when the host root is usable,
the file exists, and the parse-then-patch pipeline throws — either a
parse failure or a patch-step `TypeError` (write failures are outside
the filesystem model, which always completes writes). -/
theorem c7_amended_exit_code_iff (env : Env) (disk : List (String × String)) :
    (runScript env disk).exitCode = 1 ↔
      ∃ r content, getHostRoot env = some r ∧
        lookupKey disk (resolveConfigPath env) = some content ∧
        patchPipeline r content = Except.error () := by
  constructor
  · intro h1
    cases henv : env.hostWorkspaceRoot with
    | none => simp [runScript, henv] at h1
    | some r =>
        by_cases hre : r = ""
        · simp [runScript, henv, hre] at h1
        · cases hfile : lookupKey disk (resolveConfigPath env) with
          | none => simp [runScript, henv, hre, hfile] at h1
          | some content =>
              refine ⟨r, content, by simp [getHostRoot, henv, hre], rfl, ?_⟩
              cases hparse : relaxedParse content with
              | error e =>
                  cases e
                  rw [patchPipeline, hparse]
                  rfl
              | ok c =>
                  simp only [patchPipeline, hparse, except_bind_ok]
                  unfold patch
                  cases hens : ensureStructure c with
                  | error e => cases e; rfl
                  | ok c1 =>
                      rw [except_bind_ok]
                      cases hswr : setWorkspaceRoot c1 r with
                      | error e => cases e; rfl
                      | ok c2 =>
                          rw [except_bind_ok]
                          cases hsw : setWorkspace c2 with
                          | error e => cases e; rfl
                          | ok c3 =>
                              exfalso
                              simp [runScript, henv, hre, hfile, hparse,
                                hens, hswr, hsw] at h1
  · rintro ⟨r, content, hroot, hfile, hpp⟩
    have hre : env.hostWorkspaceRoot = some r ∧ ¬ r = "" := by
      cases henv : env.hostWorkspaceRoot with
      | none => simp [getHostRoot, henv] at hroot
      | some r' =>
          by_cases hre : r' = ""
          · simp [getHostRoot, henv, hre] at hroot
          · simp only [getHostRoot, henv, hre, if_neg hre] at hroot
            injection hroot with hroot'
            subst hroot'
            exact ⟨rfl, hre⟩
    exact (runScript_pipeline_error env disk r content hre.1 hre.2
      hfile hpp).1

/-! ## C8 -/

/-- C8: on every successful run — including runs whose input used
relaxed syntax such as comments or unquoted keys — the entire mutated
document is serialized by `stringify` (the embedding of
`JSON.stringify(config, null, 2)`: strict, 2-space-indented JSON) and
written over the original file in place, with exactly one write. -/
theorem c8_success_single_strict_write (env : Env)
    (disk : List (String × String)) (r content : String) (c c2 : JValue)
    (hroot : env.hostWorkspaceRoot = some r) (hr : r ≠ "")
    (hfile : lookupKey disk (resolveConfigPath env) = some content)
    (hparse : relaxedParse content = Except.ok c)
    (hpatch : patch c r = Except.ok c2) :
    (runScript env disk).exitCode = 0 ∧
    (runScript env disk).writes = 1 ∧
    (runScript env disk).files =
      setKey disk (resolveConfigPath env) (stringify c2) := by
  have hpp : patchPipeline r content = Except.ok c2 := by
    rw [patchPipeline, hparse, except_bind_ok, hpatch]
  rw [runScript_pipeline_ok env disk r content c2 hroot hr hfile hpp]
  exact ⟨rfl, rfl, rfl⟩

/-! ## C9 -/

/-- C9: when the parsed document is not an object, or an existing
`agents`, `agents.defaults` or `agents.defaults.sandbox` field is a
truthy non-object primitive, the patch step throws (the `TypeError` of
the strict-mode assignment), the top-level catch makes the process
exit 1, and the file on disk is unchanged. -/
theorem c9_typeerror_on_nonobject (env : Env)
    (disk : List (String × String)) (r content : String) (c : JValue)
    (hroot : env.hostWorkspaceRoot = some r) (hr : r ≠ "")
    (hfile : lookupKey disk (resolveConfigPath env) = some content)
    (hparse : relaxedParse content = Except.ok c)
    (hbad :
      isObjLike c = false ∨
      (∃ p, jpath c ["agents"] = some p ∧ truthyPrim p = true) ∨
      (∃ p, jpath c ["agents", "defaults"] = some p ∧ truthyPrim p = true) ∨
      (∃ p, jpath c ["agents", "defaults", "sandbox"] = some p ∧
        truthyPrim p = true)) :
    patch c r = Except.error () ∧
    (runScript env disk).exitCode = 1 ∧
    (runScript env disk).files = disk ∧
    (runScript env disk).writes = 0 := by
  have hp := patch_error_of_bad c r hbad
  have hpp : patchPipeline r content = Except.error () := by
    rw [patchPipeline, hparse, except_bind_ok, hp]
  exact ⟨hp, runScript_pipeline_error env disk r content hroot hr hfile hpp⟩

/-! ## C10 -/

/-- C10: the run is a pure function of the environment variables and
the content of the resolved config file — two runs over disks agreeing
on that file produce the same exit status and the same final config
file content.  (The parse is the spec's relaxed-JSON dialect, modelled
as a pure function; the source's dynamic-evaluation parse is outside
the embedding.) -/
theorem c10_deterministic (env : Env) (d1 d2 : List (String × String))
    (h : lookupKey d1 (resolveConfigPath env)
        = lookupKey d2 (resolveConfigPath env)) :
    (runScript env d1).exitCode = (runScript env d2).exitCode ∧
    lookupKey (runScript env d1).files (resolveConfigPath env)
      = lookupKey (runScript env d2).files (resolveConfigPath env) := by
  cases henv : env.hostWorkspaceRoot with
  | none => simp [runScript, henv, h]
  | some r =>
      by_cases hre : r = ""
      · simp [runScript, henv, hre, h]
      · cases hfile : lookupKey d1 (resolveConfigPath env) with
        | none =>
            have hf2 : lookupKey d2 (resolveConfigPath env) = none := by
              rw [← h, hfile]
            simp [runScript, henv, hre, hfile, hf2]
        | some content =>
            have hf2 : lookupKey d2 (resolveConfigPath env) = some content := by
              rw [← h, hfile]
            cases hparse : relaxedParse content with
            | error e =>
                simp [runScript, henv, hre, hfile, hf2, hparse, h]
            | ok c =>
                cases hens : ensureStructure c with
                | error e =>
                    simp [runScript, henv, hre, hfile, hf2, hparse, hens, h]
                | ok c1 =>
                    cases hswr : setWorkspaceRoot c1 r with
                    | error e =>
                        simp [runScript, henv, hre, hfile, hf2, hparse,
                          hens, hswr, h]
                    | ok ci =>
                        cases hsw : setWorkspace ci with
                        | error e =>
                            simp [runScript, henv, hre, hfile, hf2, hparse,
                              hens, hswr, hsw, h]
                        | ok c3 =>
                            simp [runScript, henv, hre, hfile, hf2, hparse,
                              hens, hswr, hsw, lookupKey_setKey_self]

/-! ## Witnesses: each hypothesis-bearing theorem applied at a concrete
input -/

theorem c1_witness :
    ValidDoc (JValue.obj [("other", JValue.num 1)]) = true ∧
    (∃ d', patch (JValue.obj [("other", JValue.num 1)]) "/home/user/proj"
        = Except.ok d' ∧
      jpath d' ["agents", "defaults", "sandbox", "workspaceRoot"]
        = some (JValue.str "/home/user/proj") ∧
      jpath d' ["agents", "defaults", "workspace"]
        = some (JValue.str "/workspace") ∧
      (∀ k v, getField (JValue.obj [("other", JValue.num 1)]) k = some v →
        k ≠ "agents" → getField d' k = some v) ∧
      (∀ afs k v, getField (JValue.obj [("other", JValue.num 1)]) "agents"
          = some (JValue.obj afs) →
        lookupKey afs k = some v → k ≠ "defaults" →
        jpath d' ["agents", k] = some v) ∧
      (∀ afs dfs k v, getField (JValue.obj [("other", JValue.num 1)]) "agents"
          = some (JValue.obj afs) →
        lookupKey afs "defaults" = some (JValue.obj dfs) →
        lookupKey dfs k = some v → k ≠ "sandbox" → k ≠ "workspace" →
        jpath d' ["agents", "defaults", k] = some v) ∧
      (∀ afs dfs sfs k v, getField (JValue.obj [("other", JValue.num 1)])
          "agents" = some (JValue.obj afs) →
        lookupKey afs "defaults" = some (JValue.obj dfs) →
        lookupKey dfs "sandbox" = some (JValue.obj sfs) →
        lookupKey sfs k = some v → k ≠ "workspaceRoot" →
        jpath d' ["agents", "defaults", "sandbox", k] = some v)) :=
  ⟨rfl, c1_patch_injects_and_preserves (JValue.obj [("other", JValue.num 1)])
    "/home/user/proj" rfl (by decide)⟩

theorem c2_amended_witness :
    ValidDoc (JValue.obj [("agents", JValue.null)]) = true ∧
    (∃ e, ensureStructure (JValue.obj [("agents", JValue.null)])
        = Except.ok e ∧ e = ensureSimple (JValue.obj [("agents", JValue.null)]) ∧
      (∀ k v, getField (JValue.obj [("agents", JValue.null)]) k = some v →
        k ≠ "agents" → getField e k = some v) ∧
      (∀ afs k v, getField (JValue.obj [("agents", JValue.null)]) "agents"
          = some (JValue.obj afs) →
        lookupKey afs k = some v → k ≠ "defaults" →
        jpath e ["agents", k] = some v) ∧
      (∀ afs dfs k v, getField (JValue.obj [("agents", JValue.null)]) "agents"
          = some (JValue.obj afs) →
        lookupKey afs "defaults" = some (JValue.obj dfs) →
        lookupKey dfs k = some v → k ≠ "sandbox" →
        jpath e ["agents", "defaults", k] = some v) ∧
      (∀ afs dfs sfs k v, getField (JValue.obj [("agents", JValue.null)])
          "agents" = some (JValue.obj afs) →
        lookupKey afs "defaults" = some (JValue.obj dfs) →
        lookupKey dfs "sandbox" = some (JValue.obj sfs) →
        lookupKey sfs k = some v →
        jpath e ["agents", "defaults", "sandbox", k] = some v) ∧
      (truthy (getField (JValue.obj [("agents", JValue.null)]) "agents")
          = false →
        jpath e ["agents", "defaults", "sandbox"] = some (JValue.obj []))) :=
  ⟨rfl, c2_amended_normalization (JValue.obj [("agents", JValue.null)]) rfl⟩

theorem c3_witness :
    ValidDoc (JValue.obj []) = true ∧
    (∃ d', patch (JValue.obj []) "/data" = Except.ok d' ∧
      patch d' "/data" = Except.ok d') :=
  ⟨rfl, c3_patch_idempotent (JValue.obj []) "/data" rfl (by decide)⟩

theorem c4_witness :
    (runScript ⟨none, some "/host"⟩
      [(defaultConfigPath, "not a config !!!")]).exitCode = 1 ∧
    (runScript ⟨none, some "/host"⟩
      [(defaultConfigPath, "not a config !!!")]).files
        = [(defaultConfigPath, "not a config !!!")] ∧
    (runScript ⟨none, some "/host"⟩
      [(defaultConfigPath, "not a config !!!")]).writes = 0 :=
  c4_parse_failure_aborts ⟨none, some "/host"⟩
    [(defaultConfigPath, "not a config !!!")] "/host" "not a config !!!"
    rfl (by decide) rfl rfl

theorem c5_witness :
    runScript ⟨none, none⟩ [(defaultConfigPath, "\x7b\x7d")]
      = ⟨0, [(defaultConfigPath, "\x7b\x7d")],
          [(LogLevel.warn, warnMsgNoRoot)], 0⟩ :=
  c5_no_host_root_noop ⟨none, none⟩ [(defaultConfigPath, "\x7b\x7d")]
    (Or.inl rfl)

theorem c6_witness :
    runScript ⟨some "/absent/path.json", some "/host"⟩ []
      = ⟨0, [], [(LogLevel.error, "Config file not found at "
          ++ resolveConfigPath ⟨some "/absent/path.json", some "/host"⟩)], 0⟩ :=
  c6_missing_file_noop ⟨some "/absent/path.json", some "/host"⟩ [] "/host"
    rfl (by decide) rfl

theorem c8_witness :
    (runScript ⟨some "/tmp/cfg", some "/data"⟩
      [("/tmp/cfg", "\x7b // note\n agents: \x7b defaults: \x7b foo: 1 \x7d \x7d \x7d")]).exitCode = 0 ∧
    (runScript ⟨some "/tmp/cfg", some "/data"⟩
      [("/tmp/cfg", "\x7b // note\n agents: \x7b defaults: \x7b foo: 1 \x7d \x7d \x7d")]).writes = 1 ∧
    (runScript ⟨some "/tmp/cfg", some "/data"⟩
      [("/tmp/cfg", "\x7b // note\n agents: \x7b defaults: \x7b foo: 1 \x7d \x7d \x7d")]).files
      = setKey [("/tmp/cfg", "\x7b // note\n agents: \x7b defaults: \x7b foo: 1 \x7d \x7d \x7d")]
          (resolveConfigPath ⟨some "/tmp/cfg", some "/data"⟩)
          (stringify (JValue.obj [("agents", JValue.obj [("defaults",
            JValue.obj [("foo", JValue.num 1),
              ("sandbox", JValue.obj [("workspaceRoot", JValue.str "/data")]),
              ("workspace", JValue.str "/workspace")])])])) :=
  c8_success_single_strict_write ⟨some "/tmp/cfg", some "/data"⟩
    [("/tmp/cfg", "\x7b // note\n agents: \x7b defaults: \x7b foo: 1 \x7d \x7d \x7d")]
    "/data" "\x7b // note\n agents: \x7b defaults: \x7b foo: 1 \x7d \x7d \x7d"
    (JValue.obj [("agents", JValue.obj [("defaults",
      JValue.obj [("foo", JValue.num 1)])])])
    (JValue.obj [("agents", JValue.obj [("defaults",
      JValue.obj [("foo", JValue.num 1),
        ("sandbox", JValue.obj [("workspaceRoot", JValue.str "/data")]),
        ("workspace", JValue.str "/workspace")])])])
    rfl (by decide) rfl rfl rfl

theorem c9_witness :
    patch (JValue.num 3) "/host" = Except.error () ∧
    (runScript ⟨none, some "/host"⟩ [(defaultConfigPath, "3")]).exitCode = 1 ∧
    (runScript ⟨none, some "/host"⟩ [(defaultConfigPath, "3")]).files
      = [(defaultConfigPath, "3")] ∧
    (runScript ⟨none, some "/host"⟩ [(defaultConfigPath, "3")]).writes = 0 :=
  c9_typeerror_on_nonobject ⟨none, some "/host"⟩ [(defaultConfigPath, "3")]
    "/host" "3" (JValue.num 3) rfl (by decide) rfl rfl (Or.inl rfl)

theorem c10_witness :
    (runScript ⟨some "/p", some "/host"⟩ [("/p", "1")]).exitCode
      = (runScript ⟨some "/p", some "/host"⟩
          [("/p", "1"), ("/q", "2")]).exitCode ∧
    lookupKey (runScript ⟨some "/p", some "/host"⟩ [("/p", "1")]).files
        (resolveConfigPath ⟨some "/p", some "/host"⟩)
      = lookupKey (runScript ⟨some "/p", some "/host"⟩
          [("/p", "1"), ("/q", "2")]).files
        (resolveConfigPath ⟨some "/p", some "/host"⟩) :=
  c10_deterministic ⟨some "/p", some "/host"⟩ [("/p", "1")]
    [("/p", "1"), ("/q", "2")] rfl
